import Mathlib

/-!
Shallow embedding of the session/conversation core of the
visual-chat-assistant repository (src/src/conversation_manager.py,
src/src/chat_handler.py, src/src/event_recognizer.py).

Python dictionaries are modelled as association lists, `datetime.now()`
as an explicit `now : Nat` tick passed to every operation, and
`timedelta` comparison `now - last_activity > timeout` as
`timeout < now - last_activity` on `Nat` (truncated subtraction agrees
with the Python comparison because the timeout is non-negative).
Python object identity of the per-session `context` dict matters for the
claims, so context dicts live in an explicit heap of addresses and the
session record stores the address, mirroring reference semantics.
Event timestamps (Python floats used only for ordering, copying and
absolute-difference comparison) are modelled as integers.
-/

/-- A value stored in a session context mapping (`Any` in the source;
the code stores strings and lists of topic strings). -/
inductive CtxValue where
  | str : String → CtxValue
  | strList : List String → CtxValue
deriving DecidableEq, Repr

/-- A conversation message as built by `ConversationManager.add_message`:
role, content, creation timestamp and a metadata mapping. -/
structure Message where
  role : String
  content : String
  timestamp : Nat
  metadata : List (String × String)
deriving DecidableEq, Repr

/-- A detected event record with the fields the code reads and writes. -/
structure Event where
  timestamp : Int
  frame_number : Nat
  event_type : String
  description : String
  objects : List String
  severity : String
  guideline_violation : Bool
  violation_details : Option String
deriving DecidableEq, Repr

/-- A sampled video frame as consumed by `EventRecognizer`. -/
structure Frame where
  timestamp : Int
  frame_number : Nat
  image : String
deriving DecidableEq, Repr

/-- The `video_analysis` record stored by
`ConversationManager.store_video_analysis`. -/
structure VideoAnalysis where
  events : List Event
  summary : String
  guidelines : List (String × String)
  analyzed_at : Nat
deriving DecidableEq, Repr

/-- A session record (`self.sessions[session_id]` in the source).
`contextRef` is the heap address of the session's context dict,
modelling the fact that Python stores an object reference. -/
structure Session where
  sid : String
  created_at : Nat
  last_activity : Nat
  conversation_history : List Message
  video_analysis : Option VideoAnalysis
  contextRef : Nat
deriving DecidableEq, Repr

/-- The `ConversationManager` state: the session store, the heap of
context dicts, and the two configuration fields. -/
structure CM where
  sessions : List (String × Session)
  heap : List (List (String × CtxValue))
  max_history : Nat
  session_timeout : Nat
deriving DecidableEq, Repr

/-- Dictionary read: `self.sessions.get(session_id)`. -/
def findSession (l : List (String × Session)) (sid : String) : Option Session :=
  match l.find? (fun p => p.1 == sid) with
  | some p => some p.2
  | none => none

/-- Dictionary write of an existing key (the in-place mutation of a
stored session object). -/
def setSession (l : List (String × Session)) (sid : String) (s : Session) :
    List (String × Session) :=
  l.map (fun p => if p.1 == sid then (sid, s) else p)

/-- Dictionary deletion: `del self.sessions[session_id]`. -/
def removeSession (l : List (String × Session)) (sid : String) :
    List (String × Session) :=
  l.filter (fun p => !(p.1 == sid))

/-- Read a context dict from the heap. -/
def heapRead (h : List (List (String × CtxValue))) (addr : Nat) :
    List (String × CtxValue) :=
  h.getD addr []

/-- Python dict assignment `d[k] = v`: replace the value at an existing
key in place, otherwise append the new pair. -/
def dictSet (d : List (String × CtxValue)) (k : String) (v : CtxValue) :
    List (String × CtxValue) :=
  if d.any (fun p => p.1 == k) then d.map (fun p => if p.1 == k then (k, v) else p)
  else d ++ [(k, v)]

/-- Assign `k ↦ v` in the context dict stored at `addr`. -/
def heapWrite (h : List (List (String × CtxValue))) (addr : Nat)
    (k : String) (v : CtxValue) : List (List (String × CtxValue)) :=
  h.set addr (dictSet (heapRead h addr) k v)

/-- `ConversationManager.clear_session`: delete the record if the id is
present; silently do nothing otherwise. -/
def clear_session (cm : CM) (sid : String) : CM :=
  { cm with sessions := removeSession cm.sessions sid }

/-- `ConversationManager.create_session` (the fresh uuid is passed in as
`newId`): insert a record with current timestamps, empty history, no
analysis and a freshly allocated empty context dict. -/
def create_session (cm : CM) (newId : String) (now : Nat) : CM :=
  { cm with
      sessions := cm.sessions ++
        [(newId, ⟨newId, now, now, [], none, cm.heap.length⟩)],
      heap := cm.heap ++ [[]] }

/-- `ConversationManager.get_session`: absent id returns `none`; an id
whose record satisfies `now - last_activity > timeout` is evicted via
`clear_session` and reported absent; otherwise `last_activity` is
refreshed to `now` and the record is returned. -/
def get_session (cm : CM) (sid : String) (now : Nat) : CM × Option Session :=
  match findSession cm.sessions sid with
  | none => (cm, none)
  | some s =>
    if cm.session_timeout < now - s.last_activity then
      (clear_session cm sid, none)
    else
      let s2 := { s with last_activity := now }
      ({ cm with sessions := setSession cm.sessions sid s2 }, some s2)

/-- Python tail slice `xs[-k:]` for a non-negative count `k`
(`history[-(self.max_history * 2):]`): for `k = 0` the slice start is
`-0 = 0`, so the whole list is returned. -/
def pyLastSlice (k : Nat) (xs : List Message) : List Message :=
  if k = 0 then xs else xs.drop (xs.length - k)

/-- The trimming step of `ConversationManager.add_message`: when the
history length exceeds `max_history * 2`, keep the `system`-role
messages followed by the members of the tail slice that do not duplicate
a kept system record. -/
def trimmedHistory (maxH : Nat) (h : List Message) : List Message :=
  if maxH * 2 < h.length then
    let systemMessages := h.filter (fun m => decide (m.role = "system"))
    let recentMessages := pyLastSlice (maxH * 2) h
    systemMessages ++ recentMessages.filter (fun m => decide (m ∉ systemMessages))
  else h

/-- `ConversationManager.add_message`: look the session up (refreshing
or lazily evicting it), and if it is live append the new message and
apply the trimming policy. On an absent or expired session only the
`get_session` effect happens. -/
def add_message (cm : CM) (sid role content : String)
    (metadata : List (String × String)) (now : Nat) : CM :=
  match get_session cm sid now with
  | (cm1, none) => cm1
  | (cm1, some s) =>
    let message : Message := ⟨role, content, now, metadata⟩
    let newHist := trimmedHistory cm1.max_history (s.conversation_history ++ [message])
    { cm1 with sessions := setSession cm1.sessions sid { s with conversation_history := newHist } }

/-- Python tail slice `history[-limit:]` for an arbitrary integer
`limit` as used by `get_conversation_history`. -/
def pyTailSlice (limit : Int) (xs : List Message) : List Message :=
  if 0 < limit then xs.drop (xs.length - limit.toNat)
  else if limit = 0 then xs
  else xs.drop (-limit).toNat

/-- `ConversationManager.get_conversation_history`: empty list on an
absent or expired session; otherwise the whole history, or its trailing
slice when `limit` is truthy (`if limit:` — both `None` and `0` are
falsy in Python). -/
def get_conversation_history (cm : CM) (sid : String) (limit : Option Int)
    (now : Nat) : CM × List Message :=
  match get_session cm sid now with
  | (cm1, none) => (cm1, [])
  | (cm1, some s) =>
    match limit with
    | some l => if l = 0 then (cm1, s.conversation_history)
                else (cm1, pyTailSlice l s.conversation_history)
    | none => (cm1, s.conversation_history)

/-- `ConversationManager.store_video_analysis`: on a live session,
overwrite `video_analysis` and append a `system` message describing the
event count and the first 200 characters of the summary. -/
def store_video_analysis (cm : CM) (sid : String) (events : List Event)
    (summary : String) (guidelines : List (String × String)) (now : Nat) : CM :=
  match get_session cm sid now with
  | (cm1, none) => cm1
  | (cm1, some s) =>
    let va : VideoAnalysis := ⟨events, summary, guidelines, now⟩
    let cm2 := { cm1 with
      sessions := setSession cm1.sessions sid { s with video_analysis := some va } }
    add_message cm2 sid "system"
      ("Video analyzed. Found " ++ toString events.length ++ " events. Summary: "
        ++ summary.take 200 ++ "...")
      [("type", "video_analysis")] now

/-- `ConversationManager.get_video_analysis`. -/
def get_video_analysis (cm : CM) (sid : String) (now : Nat) :
    CM × Option VideoAnalysis :=
  match get_session cm sid now with
  | (cm1, none) => (cm1, none)
  | (cm1, some s) => (cm1, s.video_analysis)

/-- `ConversationManager.update_context`: on a live session, assign the
key in the session's context dict (a heap write through the stored
reference). -/
def update_context (cm : CM) (sid key : String) (value : CtxValue) (now : Nat) : CM :=
  match get_session cm sid now with
  | (cm1, none) => cm1
  | (cm1, some s) => { cm1 with heap := heapWrite cm1.heap s.contextRef key value }

/-- `ConversationManager.get_context`: `session.get('context', {})`
returns the session's live context object (its heap address here); on an
absent or expired session the literal `{}` allocates a fresh empty dict. -/
def get_context (cm : CM) (sid : String) (now : Nat) : CM × Nat :=
  match get_session cm sid now with
  | (cm1, none) => ({ cm1 with heap := cm1.heap ++ [[]] }, cm1.heap.length)
  | (cm1, some s) => (cm1, s.contextRef)

/-- The context mapping a session currently owns (dereference of its
stored context address); empty for an absent id. -/
def ctxOf (cm : CM) (sid : String) : List (String × CtxValue) :=
  match findSession cm.sessions sid with
  | some s => heapRead cm.heap s.contextRef
  | none => []

/-- Conversation history currently stored for a session id (empty for an
absent id); a read-only observation used to state the claims. -/
def historyOf (cm : CM) (sid : String) : List Message :=
  match findSession cm.sessions sid with
  | some s => s.conversation_history
  | none => []

/-! ### Event recognizer (src/src/event_recognizer.py)

The remote vision call of `_analyze_frame_batch` is an oracle parameter
`vlm` from the frame batch to the response text (or a raised exception),
and `json.loads` on the extracted bracket span is an oracle parameter
`jsonDecode` returning `none` exactly when it would raise
`json.JSONDecodeError`. -/

/-- Python `str.find(c)`: index of the first occurrence, `-1` if absent. -/
def pyFind (c : Char) (cs : List Char) : Int :=
  match cs.findIdx? (fun d => d == c) with
  | some i => (i : Int)
  | none => -1

/-- Python `str.rfind(c)`: index of the last occurrence, `-1` if absent. -/
def pyRFind (c : Char) (cs : List Char) : Int :=
  match cs.reverse.findIdx? (fun d => d == c) with
  | some i => ((cs.length : Int) - 1 - (i : Int))
  | none => -1

/-- The span extraction of `_analyze_frame_batch`:
`start_idx = text.find('[')`, `end_idx = text.rfind(']') + 1`, and the
slice `text[start_idx:end_idx]` when `start_idx != -1 and
end_idx > start_idx`. -/
def extractArraySpan (cs : List Char) : Option (List Char) :=
  let start_idx := pyFind '[' cs
  let end_idx := pyRFind ']' cs + 1
  if start_idx ≠ -1 ∧ start_idx < end_idx then
    some ((cs.drop start_idx.toNat).take (end_idx - start_idx).toNat)
  else none

/-- Loop of `_find_closest_frame` over the remaining frames, carrying
the best frame number and its absolute timestamp distance. -/
def closestLoop (ts : Int) : List Frame → Nat → Nat → Nat
  | [], best, _ => best
  | f :: fs, best, bestDiff =>
    let diff := (f.timestamp - ts).natAbs
    if diff < bestDiff then closestLoop ts fs f.frame_number diff
    else closestLoop ts fs best bestDiff

/-- `EventRecognizer._find_closest_frame`: frame number of the frame
whose timestamp is closest to `ts` (the head frame is the initial
candidate, ties keep the earlier frame). -/
def find_closest_frame (ts : Int) (f0 : Frame) (rest : List Frame) : Nat :=
  closestLoop ts rest f0.frame_number (f0.timestamp - ts).natAbs

/-- The generic fallback event `_analyze_frame_batch` builds for one
frame when the bracket span fails JSON decoding. -/
def fallbackEvent (f : Frame) : Event :=
  { timestamp := f.timestamp
    frame_number := f.frame_number
    event_type := "scene"
    description := "Scene captured"
    objects := []
    severity := "low"
    guideline_violation := false
    violation_details := none }

/-- `EventRecognizer._analyze_frame_batch`: a failed remote call yields
`[]` (the outer handler); a response without a usable bracket span
leaves the accumulator empty; a decodable span yields the decoded
events with `frame_number` recomputed (an empty batch would make
`frames[0]` raise, caught by the outer handler); a span that fails to
decode yields one fallback event per frame of the batch. -/
def analyze_frame_batch (vlm : List Frame → Except Unit String)
    (jsonDecode : List Char → Option (List Event)) (frames : List Frame) :
    List Event :=
  match vlm frames with
  | .error _ => []
  | .ok response_text =>
    match extractArraySpan response_text.toList with
    | none => []
    | some span =>
      match jsonDecode span with
      | some detected =>
        match frames with
        | [] => []
        | f0 :: rest =>
          detected.map (fun e =>
            { e with frame_number := find_closest_frame e.timestamp f0 rest })
      | none => frames.map fallbackEvent

/-- Structural worker for the batching loop; the fuel starts at the
list length and strictly dominates it at every step, so the zero-fuel
case is never reached on the initial call. -/
def batchesGo : Nat → List Frame → List (List Frame)
  | _, [] => []
  | 0, _ :: _ => []
  | fuel + 1, f :: rest => (f :: rest.take 4) :: batchesGo fuel (rest.drop 4)

/-- The batching loop of `detect_events`: successive slices
`frames[i:i+5]`. -/
def batchesOf5 (l : List Frame) : List (List Frame) :=
  batchesGo l.length l

/-- Insertion step of the stable sort modelling Python's
`events.sort(key=lambda x: x['timestamp'])`: a new element passes over
strictly smaller timestamps only, so it lands before later-inserted
elements of equal timestamp. -/
def insertByTimestamp (e : Event) : List Event → List Event
  | [] => [e]
  | x :: xs =>
    if x.timestamp < e.timestamp then x :: insertByTimestamp e xs
    else e :: x :: xs

/-- Stable sort by ascending timestamp; extensionally equal to Python's
stable `list.sort` with the timestamp key. -/
def sortByTimestamp : List Event → List Event
  | [] => []
  | x :: xs => insertByTimestamp x (sortByTimestamp xs)

/-- The concatenated per-batch results of `detect_events` before the
final sort, in submission order. -/
def rawBatchEvents (vlm : List Frame → Except Unit String)
    (jsonDecode : List Char → Option (List Event)) (frames : List Frame) :
    List Event :=
  ((batchesOf5 frames).map (analyze_frame_batch vlm jsonDecode)).flatten

/-- `EventRecognizer.detect_events`: analyze the frames in batches of 5,
concatenate, and sort the events by timestamp (stably). The per-batch
analysis never raises, so the outer exception handler is dead. -/
def detect_events (vlm : List Frame → Except Unit String)
    (jsonDecode : List Char → Option (List Event)) (frames : List Frame) :
    List Event :=
  sortByTimestamp (rawBatchEvents vlm jsonDecode frames)

/-! ### Chat handler (src/src/chat_handler.py)

The remote chat call of `_generate_response` is an oracle parameter
`gen` from the built message list to the generated text or a raised
exception (the source re-raises on failure, so the exception reaches
`process_message`'s handler). -/

/-- A role-tagged message of the array sent to the chat model. -/
structure LMessage where
  role : String
  content : String
deriving DecidableEq, Repr

/-- The system prompt literal of `ChatHandler.__init__`. -/
def system_prompt : String :=
  "You are an intelligent visual understanding assistant specializing in video analysis. \n        You have access to video analysis results including detected events, summaries, and guideline adherence information.\n        \n        Your capabilities include:\n        1. Answering questions about analyzed videos\n        2. Providing detailed explanations of events\n        3. Discussing guideline violations and safety concerns\n        4. Maintaining context across multiple conversation turns\n        5. Helping users understand temporal relationships between events\n        \n        Be informative, precise, and helpful. When discussing events, reference specific timestamps when available.\n        If asked about something not in the video analysis, clearly state that information is not available."

/-- The apologetic message returned by `process_message` when any step
of the turn raises. -/
def apologyMessage : String :=
  "I apologize, but I encountered an error processing your message. Please try again."

/-- Python `d.get(k, default)` on a string-valued dict. -/
def lookupD (d : List (String × String)) (k dflt : String) : String :=
  match d.find? (fun p => p.1 == k) with
  | some p => p.2
  | none => dflt

/-- Rendering `f"\x7bt:.1f\x7d"` of a timestamp; timestamps are whole
numbers of seconds in this embedding, so one decimal place is `.0`. -/
def formatFloat1 (t : Int) : String :=
  toString t ++ ".0"

/-- `ChatHandler._build_messages`: the system prompt optionally extended
with the analysis digest, then the user/assistant turns of the history
minus its last entry (the just-added user message), then the current
message. The `context` argument is accepted and ignored, as in the
source. -/
def build_messages (history : List Message) (video_analysis : Option VideoAnalysis)
    (context : List (String × CtxValue)) (current_message : String) : List LMessage :=
  let _ := context
  let system_content :=
    match video_analysis with
    | none => system_prompt
    | some va =>
      let base := system_prompt ++ "\n\nVideo Analysis Available:\n"
        ++ "Summary: " ++ va.summary ++ "\n"
        ++ "Total Events: " ++ toString va.events.length ++ "\n"
        ++ "Guideline Compliance: " ++ lookupD va.guidelines "compliance_status" "Unknown" ++ "\n"
        ++ "Violations: " ++ lookupD va.guidelines "violations_count" "0" ++ "\n"
      let evs := va.events.take 5
      if evs.isEmpty then base
      else base ++ "\nSample Events:\n"
        ++ String.join (evs.map (fun e =>
             "- [" ++ formatFloat1 e.timestamp ++ "s] " ++ e.description ++ "\n"))
  [⟨"system", system_content⟩]
    ++ (history.dropLast.filter
          (fun m => decide (m.role = "user" ∨ m.role = "assistant"))).map
        (fun m => ⟨m.role, m.content⟩)
    ++ [⟨"user", current_message⟩]

/-- Whether the pattern occurs at the head of the text. -/
def matchesAt : List Char → List Char → Bool
  | [], _ => true
  | _ :: _, [] => false
  | c :: cs, d :: ds => c == d && matchesAt cs ds

/-- Python substring containment `needle in hay`. -/
def containsSub (needle : List Char) : List Char → Bool
  | [] => needle.isEmpty
  | c :: cs => matchesAt needle (c :: cs) || containsSub needle cs

/-- Python `needle in hay` on strings. -/
def strIn (needle hay : String) : Bool :=
  containsSub needle.toList hay.toList

/-- Python `str.lower()` restricted to ASCII, as applied to the user
message. -/
def strLower (s : String) : String :=
  String.mk (s.toList.map Char.toLower)

/-- The keyword table of `_update_context_from_conversation`, in dict
iteration (insertion) order. -/
def keywordTable : List (String × List String) :=
  [("traffic", ["traffic", "vehicle", "car", "pedestrian", "light", "road"]),
   ("safety", ["safety", "violation", "danger", "hazard", "risk"]),
   ("timeline", ["when", "time", "timestamp", "sequence", "order"]),
   ("summary", ["summary", "overview", "summarize", "brief"])]

/-- Topic detection of `_update_context_from_conversation`: a topic is
collected when any of its keywords occurs in the lowercased message. -/
def detectTopics (message : String) : List String :=
  let message_lower := strLower message
  (keywordTable.filter (fun p => p.2.any (fun w => strIn w message_lower))).map
    (fun p => p.1)

/-- `ChatHandler._update_context_from_conversation`: store the detected
topics under `current_topics` when any were found. -/
def update_context_from_conversation (cm : CM) (sid message : String)
    (now : Nat) : CM :=
  let topics := detectTopics message
  if topics.isEmpty then cm
  else update_context cm sid "current_topics" (CtxValue.strList topics) now

/-- `ChatHandler.process_message`: append the user message, read
history (limit 10), analysis and context, build the prompt, call the
chat model, and on success append the assistant message and update the
context. The surrounding handler turns any raised exception — only the
model call can raise in this model — into the apologetic message,
leaving the mutations already performed in place. -/
def process_message (gen : List LMessage → Except Unit String) (cm : CM)
    (sid message : String) (now : Nat) : CM × String :=
  let cm1 := add_message cm sid "user" message [] now
  let hres := get_conversation_history cm1 sid (some 10) now
  let vres := get_video_analysis hres.1 sid now
  let cres := get_context vres.1 sid now
  let msgs := build_messages hres.2 vres.2 (heapRead cres.1.heap cres.2) message
  match gen msgs with
  | .error _ => (cres.1, apologyMessage)
  | .ok response =>
    let cm5 := add_message cres.1 sid "assistant" response [] now
    let cm6 := update_context_from_conversation cm5 sid message now
    (cm6, response)

/-! ### Association-list lemmas for the session store -/

theorem findSession_nil (k : String) : findSession [] k = none := rfl

theorem findSession_cons (p : String × Session) (l : List (String × Session))
    (k : String) :
    findSession (p :: l) k = if p.1 = k then some p.2 else findSession l k := by
  by_cases h : p.1 = k
  · have hb : (p.1 == k) = true := by simp [h]
    simp [findSession, List.find?, hb, h]
  · have hb : (p.1 == k) = false := by simp [h]
    simp [findSession, List.find?, hb, h]

theorem removeSession_nil (k : String) : removeSession [] k = [] := rfl

theorem removeSession_cons (p : String × Session) (l : List (String × Session))
    (k : String) :
    removeSession (p :: l) k =
      if p.1 = k then removeSession l k else p :: removeSession l k := by
  by_cases h : p.1 = k
  · have hb : (!(p.1 == k)) = false := by simp [h]
    simp [removeSession, List.filter, hb, h]
  · have hb : (!(p.1 == k)) = true := by simp [h]
    simp [removeSession, List.filter, hb, h]

theorem setSession_nil (k : String) (a : Session) : setSession [] k a = [] := rfl

theorem setSession_cons (p : String × Session) (l : List (String × Session))
    (k : String) (a : Session) :
    setSession (p :: l) k a =
      (if p.1 = k then (k, a) else p) :: setSession l k a := by
  by_cases h : p.1 = k
  · have hb : (p.1 == k) = true := by simp [h]
    simp [setSession, hb, h]
  · have hb : (p.1 == k) = false := by simp [h]
    simp [setSession, hb, h]

theorem findSession_removeSession (l : List (String × Session)) (k k2 : String) :
    findSession (removeSession l k) k2 =
      if k2 = k then none else findSession l k2 := by
  induction l with
  | nil => simp [removeSession_nil, findSession_nil]
  | cons p t ih =>
    rw [removeSession_cons]
    by_cases hpk : p.1 = k
    · rw [if_pos hpk, ih, findSession_cons]
      by_cases hk2 : k2 = k
      · simp [hk2]
      · have hpk2 : ¬ p.1 = k2 := by rw [hpk]; exact fun hh => hk2 hh.symm
        simp [hk2, hpk2]
    · rw [if_neg hpk, findSession_cons, findSession_cons, ih]
      by_cases hpk2 : p.1 = k2
      · have hk2 : ¬ k2 = k := fun hh => hpk (hpk2.trans hh)
        simp [hpk2, hk2]
      · simp [hpk2]

theorem removeSession_of_absent (l : List (String × Session)) (k : String)
    (h : findSession l k = none) : removeSession l k = l := by
  induction l with
  | nil => rfl
  | cons p t ih =>
    rw [findSession_cons] at h
    by_cases hpk : p.1 = k
    · simp [hpk] at h
    · rw [if_neg hpk] at h
      rw [removeSession_cons, if_neg hpk, ih h]

theorem removeSession_removeSession (l : List (String × Session)) (k : String) :
    removeSession (removeSession l k) k = removeSession l k := by
  apply removeSession_of_absent
  rw [findSession_removeSession]
  simp

theorem findSession_setSession (l : List (String × Session)) (k : String)
    (s a : Session) (h : findSession l k = some s) :
    findSession (setSession l k a) k = some a := by
  induction l with
  | nil => simp [findSession_nil] at h
  | cons p t ih =>
    rw [findSession_cons] at h
    rw [setSession_cons]
    by_cases hpk : p.1 = k
    · rw [if_pos hpk, findSession_cons]
      simp
    · rw [if_neg hpk] at h
      rw [if_neg hpk, findSession_cons, if_neg hpk, ih h]

theorem findSession_setSession_ne (l : List (String × Session)) (k k2 : String)
    (a : Session) (h : k2 ≠ k) :
    findSession (setSession l k a) k2 = findSession l k2 := by
  induction l with
  | nil => simp [setSession_nil]
  | cons p t ih =>
    rw [setSession_cons]
    by_cases hpk : p.1 = k
    · have hkk2 : ¬ k = k2 := fun hh => h hh.symm
      have hpk2 : ¬ p.1 = k2 := by rw [hpk]; exact hkk2
      rw [if_pos hpk, findSession_cons, findSession_cons]
      simp only [hkk2, if_false, hpk2, ih]
    · rw [if_neg hpk, findSession_cons, findSession_cons, ih]

theorem keys_setSession (l : List (String × Session)) (k : String) (a : Session) :
    (setSession l k a).map Prod.fst = l.map Prod.fst := by
  induction l with
  | nil => rfl
  | cons p t ih =>
    rw [setSession_cons]
    by_cases hpk : p.1 = k
    · simp [hpk, ih]
    · simp [hpk, ih]

theorem setSession_of_not_mem (l : List (String × Session)) (k : String)
    (a : Session) (h : k ∉ l.map Prod.fst) : setSession l k a = l := by
  induction l with
  | nil => rfl
  | cons p t ih =>
    simp only [List.map_cons, List.mem_cons] at h
    push_neg at h
    have hpk : ¬ p.1 = k := fun hh => h.1 hh.symm
    rw [setSession_cons, if_neg hpk, ih h.2]

theorem setSession_self (l : List (String × Session)) (k : String) (s : Session)
    (hnd : (l.map Prod.fst).Nodup) (h : findSession l k = some s) :
    setSession l k s = l := by
  induction l with
  | nil => rfl
  | cons p t ih =>
    rw [findSession_cons] at h
    simp only [List.map_cons, List.nodup_cons] at hnd
    rw [setSession_cons]
    by_cases hpk : p.1 = k
    · rw [if_pos hpk] at *
      have hs : s = p.2 := by
        have := h
        simp at this
        exact this.symm
      have hnot : k ∉ t.map Prod.fst := hpk ▸ hnd.1
      rw [hs, setSession_of_not_mem t k p.2 hnot]
      have : (k, p.2) = p := Prod.ext hpk.symm rfl
      rw [this]
    · rw [if_neg hpk] at h
      rw [if_neg hpk, ih hnd.2 h]

theorem setSession_setSession (l : List (String × Session)) (k : String)
    (a b : Session) : setSession (setSession l k a) k b = setSession l k b := by
  induction l with
  | nil => rfl
  | cons p t ih =>
    rw [setSession_cons, setSession_cons]
    by_cases hpk : p.1 = k
    · rw [if_pos hpk, setSession_cons, if_pos rfl, ih, if_pos hpk]
    · rw [if_neg hpk, setSession_cons, if_neg hpk, ih]

/-! ### Claims about the session store -/

/-- C8: for every store state and session id, `clear_session` removes
the record if present and is a no-op (not an error) if the id is absent;
every other session's record is unchanged, and deleting the same id
twice equals deleting it once. -/
theorem C8_clear_idempotent (cm : CM) (sid : String) :
    (∀ sid2, findSession (clear_session cm sid).sessions sid2 =
        if sid2 = sid then none else findSession cm.sessions sid2) ∧
    (findSession cm.sessions sid = none → clear_session cm sid = cm) ∧
    clear_session (clear_session cm sid) sid = clear_session cm sid := by
  refine ⟨fun sid2 => ?_, fun h => ?_, ?_⟩
  · simp [clear_session, findSession_removeSession]
  · simp [clear_session, removeSession_of_absent _ _ h]
  · simp [clear_session, removeSession_removeSession]

/-- Witness for C8 at a concrete one-session store: deleting `"a"`
removes it, deleting the absent `"zzz"` changes nothing, and a second
delete of `"a"` equals the first. -/
theorem C8_clear_idempotent_witness :
    findSession (clear_session ⟨[("a", ⟨"a", 0, 0, [], none, 0⟩)], [[]], 10, 30⟩
      "a").sessions "a" = none ∧
    clear_session ⟨[("a", ⟨"a", 0, 0, [], none, 0⟩)], [[]], 10, 30⟩ "zzz" =
      ⟨[("a", ⟨"a", 0, 0, [], none, 0⟩)], [[]], 10, 30⟩ ∧
    clear_session (clear_session ⟨[("a", ⟨"a", 0, 0, [], none, 0⟩)], [[]], 10, 30⟩
        "a") "a" =
      clear_session ⟨[("a", ⟨"a", 0, 0, [], none, 0⟩)], [[]], 10, 30⟩ "a" := by
  refine ⟨?_, ?_, (C8_clear_idempotent ⟨[("a", ⟨"a", 0, 0, [], none, 0⟩)], [[]], 10, 30⟩ "a").2.2⟩
  · have h := (C8_clear_idempotent ⟨[("a", ⟨"a", 0, 0, [], none, 0⟩)], [[]], 10, 30⟩ "a").1 "a"
    simpa using h
  · exact (C8_clear_idempotent ⟨[("a", ⟨"a", 0, 0, [], none, 0⟩)], [[]], 10, 30⟩ "zzz").2.1
      (by decide)

/-- C3: a `get_session` on an id whose record satisfies
`now - last_activity > timeout` evicts the record and returns absent,
a repeated `get_session` on the evicted id again returns absent with no
further state change (idempotent eviction), and both calls are ordinary
total function applications (no exception). -/
theorem C3_expired_get_evicts (cm : CM) (sid : String) (s : Session)
    (now now2 : Nat)
    (hs : findSession cm.sessions sid = some s)
    (hexp : cm.session_timeout < now - s.last_activity) :
    get_session cm sid now = (clear_session cm sid, none) ∧
    findSession (clear_session cm sid).sessions sid = none ∧
    get_session (clear_session cm sid) sid now2 = (clear_session cm sid, none) := by
  have hfind : findSession (clear_session cm sid).sessions sid = none := by
    simp [clear_session, findSession_removeSession]
  refine ⟨?_, hfind, ?_⟩
  · simp [get_session, hs, hexp]
  · simp [get_session, hfind]

/-- Witness for C3: with timeout 30, a session last active at tick 0 and
accessed at tick 31 is evicted and stays absent at tick 40. -/
theorem C3_expired_get_evicts_witness :
    get_session ⟨[("a", ⟨"a", 0, 0, [], none, 0⟩)], [[]], 10, 30⟩ "a" 31 =
      (⟨[], [[]], 10, 30⟩, none) ∧
    get_session (clear_session ⟨[("a", ⟨"a", 0, 0, [], none, 0⟩)], [[]], 10, 30⟩ "a")
      "a" 40 = (clear_session ⟨[("a", ⟨"a", 0, 0, [], none, 0⟩)], [[]], 10, 30⟩ "a", none) := by
  have h := C3_expired_get_evicts ⟨[("a", ⟨"a", 0, 0, [], none, 0⟩)], [[]], 10, 30⟩
    "a" ⟨"a", 0, 0, [], none, 0⟩ 31 40 (by decide) (by decide)
  exact ⟨h.1.trans (by decide), h.2.2⟩

/-- C5: a `get_session` on a live, non-expired id refreshes
`last_activity` to the access tick, returns the record with every other
field unchanged, leaves other sessions untouched, and a repeated
`get_session` within the timeout of the first access still finds the
session (so a read near the boundary does not expire it). -/
theorem C5_refresh_on_access (cm : CM) (sid : String) (s : Session)
    (now now2 : Nat)
    (hs : findSession cm.sessions sid = some s)
    (hexp : ¬ cm.session_timeout < now - s.last_activity)
    (hnow2 : now2 - now ≤ cm.session_timeout) :
    get_session cm sid now =
      ({ cm with sessions := setSession cm.sessions sid { s with last_activity := now } },
        some { s with last_activity := now }) ∧
    findSession (get_session cm sid now).1.sessions sid =
      some { s with last_activity := now } ∧
    (∀ sid2, sid2 ≠ sid →
      findSession (get_session cm sid now).1.sessions sid2 =
        findSession cm.sessions sid2) ∧
    (get_session (get_session cm sid now).1 sid now2).2 =
      some { s with last_activity := now2 } := by
  have h1 : get_session cm sid now =
      ({ cm with sessions := setSession cm.sessions sid { s with last_activity := now } },
        some { s with last_activity := now }) := by
    simp [get_session, hs, hexp]
  have hfind : findSession (setSession cm.sessions sid { s with last_activity := now }) sid =
      some { s with last_activity := now } :=
    findSession_setSession cm.sessions sid s _ hs
  refine ⟨h1, ?_, fun sid2 hne => ?_, ?_⟩
  · rw [h1]
    exact hfind
  · rw [h1]
    exact findSession_setSession_ne cm.sessions sid sid2 _ hne
  · rw [h1]
    simp [get_session, hfind, Nat.not_lt.mpr hnow2]

/-- Witness for C5: timeout 30, last activity 0, first access at tick
30 (the boundary), second access at tick 60 still finds the session. -/
theorem C5_refresh_on_access_witness :
    get_session ⟨[("a", ⟨"a", 0, 0, [], none, 0⟩)], [[]], 10, 30⟩ "a" 30 =
      (⟨[("a", ⟨"a", 0, 30, [], none, 0⟩)], [[]], 10, 30⟩,
        some ⟨"a", 0, 30, [], none, 0⟩) ∧
    (get_session (get_session ⟨[("a", ⟨"a", 0, 0, [], none, 0⟩)], [[]], 10, 30⟩
        "a" 30).1 "a" 60).2 = some ⟨"a", 0, 60, [], none, 0⟩ := by
  have h := C5_refresh_on_access ⟨[("a", ⟨"a", 0, 0, [], none, 0⟩)], [[]], 10, 30⟩
    "a" ⟨"a", 0, 0, [], none, 0⟩ 30 60 (by decide) (by decide) (by decide)
  exact ⟨h.1.trans (by decide), h.2.2.2.trans (by decide)⟩

/-- C10: the history read returns the empty list on an absent or expired
session; on a live session a strictly positive limit returns exactly the
trailing `limit` messages in order, and both `limit = 0` and no limit
return the entire history. -/
theorem C10_history_read (cm : CM) (sid : String) (s : Session) (now : Nat)
    (hs : findSession cm.sessions sid = some s)
    (hexp : ¬ cm.session_timeout < now - s.last_activity) :
    (∀ l : Int, 0 < l →
      (get_conversation_history cm sid (some l) now).2 =
        s.conversation_history.drop (s.conversation_history.length - l.toNat)) ∧
    (get_conversation_history cm sid (some 0) now).2 = s.conversation_history ∧
    (get_conversation_history cm sid none now).2 = s.conversation_history ∧
    (∀ (cm2 : CM) (sid2 : String) (limit : Option Int) (now2 : Nat),
      findSession cm2.sessions sid2 = none →
      (get_conversation_history cm2 sid2 limit now2).2 = []) ∧
    (∀ (limit : Option Int) (now2 : Nat),
      cm.session_timeout < now2 - s.last_activity →
      (get_conversation_history cm sid limit now2).2 = []) := by
  refine ⟨fun l hl => ?_, ?_, ?_, fun cm2 sid2 limit now2 h2 => ?_, fun limit now2 h2 => ?_⟩
  · have hne : ¬ l = 0 := by omega
    simp [get_conversation_history, get_session, hs, hexp, hne, pyTailSlice, hl]
  · simp [get_conversation_history, get_session, hs, hexp]
  · simp [get_conversation_history, get_session, hs, hexp]
  · simp [get_conversation_history, get_session, h2]
  · simp [get_conversation_history, get_session, hs, h2]

/-- Witness for C10 on a three-message history: limit 2 gives the last
two messages, limits 0 and none give all three, and an absent id gives
the empty list. -/
theorem C10_history_read_witness :
    (get_conversation_history
      ⟨[("a", ⟨"a", 0, 0, [⟨"user", "m1", 1, []⟩, ⟨"assistant", "m2", 2, []⟩,
        ⟨"user", "m3", 3, []⟩], none, 0⟩)], [[]], 10, 30⟩ "a" (some 2) 4).2 =
      [⟨"assistant", "m2", 2, []⟩, ⟨"user", "m3", 3, []⟩] ∧
    (get_conversation_history
      ⟨[("a", ⟨"a", 0, 0, [⟨"user", "m1", 1, []⟩, ⟨"assistant", "m2", 2, []⟩,
        ⟨"user", "m3", 3, []⟩], none, 0⟩)], [[]], 10, 30⟩ "a" (some 0) 4).2 =
      [⟨"user", "m1", 1, []⟩, ⟨"assistant", "m2", 2, []⟩, ⟨"user", "m3", 3, []⟩] ∧
    (get_conversation_history
      ⟨[("a", ⟨"a", 0, 0, [⟨"user", "m1", 1, []⟩, ⟨"assistant", "m2", 2, []⟩,
        ⟨"user", "m3", 3, []⟩], none, 0⟩)], [[]], 10, 30⟩ "zzz" (some 2) 4).2 = [] := by
  have h := C10_history_read
    ⟨[("a", ⟨"a", 0, 0, [⟨"user", "m1", 1, []⟩, ⟨"assistant", "m2", 2, []⟩,
      ⟨"user", "m3", 3, []⟩], none, 0⟩)], [[]], 10, 30⟩ "a"
    ⟨"a", 0, 0, [⟨"user", "m1", 1, []⟩, ⟨"assistant", "m2", 2, []⟩,
      ⟨"user", "m3", 3, []⟩], none, 0⟩ 4 (by decide) (by decide)
  refine ⟨(h.1 2 (by decide)).trans (by decide), (h.2.1).trans (by decide), ?_⟩
  exact h.2.2.2.1 _ "zzz" (some 2) 4 (by decide)

/-- Heap write then read at a valid address observes the assignment. -/
theorem heapRead_heapWrite_self (h : List (List (String × CtxValue))) (addr : Nat)
    (k : String) (v : CtxValue) (hlt : addr < h.length) :
    heapRead (heapWrite h addr k v) addr = dictSet (heapRead h addr) k v := by
  induction h generalizing addr with
  | nil => simp at hlt
  | cons d t ih =>
    cases addr with
    | zero => simp [heapRead, heapWrite, List.set]
    | succ n =>
      have hlt2 : n < t.length := by simpa using hlt
      simpa [heapRead, heapWrite, List.set] using ih n hlt2

/-- C7 (amended): the context read on a live session is not a snapshot:
`get_context` returns the session's live context object (its stored
heap address) without copying, so a context mutation performed after the
read is visible through the returned mapping, and an assignment made
through the returned mapping alters the stored session context. -/
theorem C7_context_alias (cm : CM) (sid : String) (s : Session) (now : Nat)
    (hs : findSession cm.sessions sid = some s)
    (hexp : ¬ cm.session_timeout < now - s.last_activity)
    (haddr : s.contextRef < cm.heap.length) :
    (get_context cm sid now).2 = s.contextRef ∧
    (get_context cm sid now).1.heap = cm.heap ∧
    (∀ k v, heapRead (update_context (get_context cm sid now).1 sid k v now).heap
        (get_context cm sid now).2 =
      dictSet (heapRead cm.heap s.contextRef) k v) ∧
    (∀ k v, ctxOf { (get_context cm sid now).1 with
        heap := heapWrite (get_context cm sid now).1.heap
          (get_context cm sid now).2 k v } sid =
      dictSet (heapRead cm.heap s.contextRef) k v) := by
  have h1 : get_context cm sid now =
      ({ cm with sessions :=
          setSession cm.sessions sid { s with last_activity := now } },
        s.contextRef) := by
    simp [get_context, get_session, hs, hexp]
  have hfind : findSession
      (setSession cm.sessions sid { s with last_activity := now }) sid =
      some { s with last_activity := now } :=
    findSession_setSession cm.sessions sid s _ hs
  refine ⟨by rw [h1], by rw [h1], fun k v => ?_, fun k v => ?_⟩
  · rw [h1]
    simp only [update_context, get_session, hfind, Nat.sub_self, Nat.not_lt_zero,
      if_false]
    exact heapRead_heapWrite_self cm.heap s.contextRef k v haddr
  · rw [h1]
    simp only [ctxOf, hfind]
    exact heapRead_heapWrite_self cm.heap s.contextRef k v haddr

/-- Witness for C7 at a one-session store with empty context: the read
returns address 0, an update afterwards is visible through that address,
and a write through that address changes the stored context. -/
theorem C7_context_alias_witness :
    (get_context ⟨[("a", ⟨"a", 0, 0, [], none, 0⟩)], [[]], 10, 30⟩ "a" 1).2 = 0 ∧
    heapRead (update_context
        (get_context ⟨[("a", ⟨"a", 0, 0, [], none, 0⟩)], [[]], 10, 30⟩ "a" 1).1
        "a" "topic" (CtxValue.str "traffic") 1).heap
      (get_context ⟨[("a", ⟨"a", 0, 0, [], none, 0⟩)], [[]], 10, 30⟩ "a" 1).2 =
      [("topic", CtxValue.str "traffic")] := by
  have h := C7_context_alias ⟨[("a", ⟨"a", 0, 0, [], none, 0⟩)], [[]], 10, 30⟩
    "a" ⟨"a", 0, 0, [], none, 0⟩ 1 (by decide) (by decide) (by decide)
  exact ⟨h.1, (h.2.2.1 "topic" (CtxValue.str "traffic")).trans (by decide)⟩

/-- Counterexample for C7 as stated: writing through the mapping
returned by `get_context` (the returned heap address) changes the
context stored in the session, so the returned mapping is not a copy. -/
theorem C7_snapshot_counterexample :
    ctxOf { (get_context ⟨[("a", ⟨"a", 0, 0, [], none, 0⟩)], [[]], 10, 30⟩
          "a" 1).1 with
        heap := heapWrite
          (get_context ⟨[("a", ⟨"a", 0, 0, [], none, 0⟩)], [[]], 10, 30⟩ "a" 1).1.heap
          (get_context ⟨[("a", ⟨"a", 0, 0, [], none, 0⟩)], [[]], 10, 30⟩ "a" 1).2
          "k" (CtxValue.str "v") } "a" ≠
    ctxOf (get_context ⟨[("a", ⟨"a", 0, 0, [], none, 0⟩)], [[]], 10, 30⟩ "a" 1).1
      "a" := by
  decide

/-- C6 (amended): when the vision model's response contains a
`[`…`]` span but that span fails JSON decoding, the batch analysis
falls back to exactly one generic low-severity `"scene"` event per
frame of the batch, carrying the frame's timestamp and frame number
with `guideline_violation` false; a response with no such span instead
contributes no events for the batch. -/
theorem C6_fallback_amended (vlm : List Frame → Except Unit String)
    (jsonDecode : List Char → Option (List Event)) (frames : List Frame)
    (text : String) (span : List Char)
    (hok : vlm frames = Except.ok text)
    (hspan : extractArraySpan text.toList = some span)
    (hdec : jsonDecode span = none) :
    analyze_frame_batch vlm jsonDecode frames = frames.map fallbackEvent ∧
    (∀ f ∈ frames,
      (fallbackEvent f).timestamp = f.timestamp ∧
      (fallbackEvent f).frame_number = f.frame_number ∧
      (fallbackEvent f).event_type = "scene" ∧
      (fallbackEvent f).severity = "low" ∧
      (fallbackEvent f).guideline_violation = false) ∧
    (∀ (vlm2 : List Frame → Except Unit String) (text2 : String),
      vlm2 frames = Except.ok text2 →
      extractArraySpan text2.toList = none →
      analyze_frame_batch vlm2 jsonDecode frames = []) := by
  refine ⟨?_, fun f _ => ⟨rfl, rfl, rfl, rfl, rfl⟩, fun vlm2 text2 hok2 hnone => ?_⟩
  · have hspan2 : extractArraySpan text.data = some span := hspan
    simp [analyze_frame_batch, hok, hspan2, hdec]
  · have hnone2 : extractArraySpan text2.data = none := hnone
    simp [analyze_frame_batch, hok2, hnone2]

/-- Witness for C6 on a one-frame batch whose response holds an
undecodable bracket span: the result is the single fallback event. -/
theorem C6_fallback_amended_witness :
    analyze_frame_batch (fun _ => Except.ok "oops [not json] here")
      (fun _ => none) [⟨7, 3, "img"⟩] =
      [⟨7, 3, "scene", "Scene captured", [], "low", false, none⟩] := by
  have h := C6_fallback_amended (fun _ => Except.ok "oops [not json] here")
    (fun _ => none) [⟨7, 3, "img"⟩] "oops [not json] here"
    ("[not json]".toList) rfl (by decide) rfl
  exact h.1.trans (by decide)

/-- Counterexample for C6 as stated: a response with no bracketed span
cannot be parsed as a structured JSON event array, yet the batch yields
no events at all instead of one generic `"scene"` event per frame —
the batch is discarded. -/
theorem C6_fallback_counterexample :
    analyze_frame_batch (fun _ => Except.ok "no events detected")
      (fun _ => none) [⟨7, 3, "img"⟩] = [] ∧
    ([] : List Event) ≠
      [⟨7, 3, "scene", "Scene captured", [], "low", false, none⟩] := by
  exact ⟨by decide, by decide⟩

/-! ### Lemmas about live-session mutations and the event sort -/

/-- Effect of `add_message` on a live, non-expired session: the new
message is appended, the trim policy applied, and `last_activity`
refreshed, in a single store update. -/
theorem add_message_live (cm : CM) (sid role content : String)
    (metadata : List (String × String)) (now : Nat) (s : Session)
    (hs : findSession cm.sessions sid = some s)
    (hexp : ¬ cm.session_timeout < now - s.last_activity) :
    add_message cm sid role content metadata now =
      { cm with sessions := (setSession cm.sessions sid
          { s with last_activity := now,
                   conversation_history := trimmedHistory cm.max_history
                     (s.conversation_history ++ [⟨role, content, now, metadata⟩]) }) } := by
  simp [add_message, get_session, hs, hexp, setSession_setSession]

/-- Effect of `store_video_analysis` on a live, non-expired session:
the analysis record is overwritten and the single system message
appended (with trimming), in a single store update. -/
theorem store_video_analysis_live (cm : CM) (sid : String) (events : List Event)
    (summary : String) (guidelines : List (String × String)) (now : Nat)
    (s : Session)
    (hs : findSession cm.sessions sid = some s)
    (hexp : ¬ cm.session_timeout < now - s.last_activity) :
    store_video_analysis cm sid events summary guidelines now =
      { cm with sessions := (setSession cm.sessions sid
          { s with last_activity := now,
                   video_analysis := some ⟨events, summary, guidelines, now⟩,
                   conversation_history := trimmedHistory cm.max_history
                     (s.conversation_history ++
                      [⟨"system",
                        "Video analyzed. Found " ++ toString events.length ++
                          " events. Summary: " ++ summary.take 200 ++ "...",
                        now, [("type", "video_analysis")]⟩]) }) } := by
  have hstep : store_video_analysis cm sid events summary guidelines now =
      add_message
        { cm with sessions := (setSession cm.sessions sid
            { s with last_activity := now,
                     video_analysis := some ⟨events, summary, guidelines, now⟩ }) }
        sid "system"
        ("Video analyzed. Found " ++ toString events.length ++
          " events. Summary: " ++ summary.take 200 ++ "...")
        [("type", "video_analysis")] now := by
    simp [store_video_analysis, get_session, hs, hexp, setSession_setSession]
  rw [hstep]
  have hfind2 : findSession
      (setSession cm.sessions sid
        ({ s with last_activity := now,
                  video_analysis := some ⟨events, summary, guidelines, now⟩ })) sid =
      some ({ s with last_activity := now,
                     video_analysis := some ⟨events, summary, guidelines, now⟩ }) :=
    findSession_setSession cm.sessions sid s _ hs
  rw [add_message_live _ sid _ _ _ now _ hfind2 (by simp)]
  simp [setSession_setSession]

theorem mem_insertByTimestamp (e y : Event) (l : List Event) :
    y ∈ insertByTimestamp e l ↔ y = e ∨ y ∈ l := by
  induction l with
  | nil => simp [insertByTimestamp]
  | cons x xs ih =>
    by_cases h : x.timestamp < e.timestamp
    · simp only [insertByTimestamp, if_pos h, List.mem_cons, ih]
      tauto
    · simp only [insertByTimestamp, if_neg h, List.mem_cons]

theorem pairwise_insertByTimestamp (e : Event) (l : List Event)
    (hl : List.Pairwise (fun a b => a.timestamp ≤ b.timestamp) l) :
    List.Pairwise (fun a b => a.timestamp ≤ b.timestamp) (insertByTimestamp e l) := by
  induction l with
  | nil => simp [insertByTimestamp]
  | cons x xs ih =>
    rw [List.pairwise_cons] at hl
    by_cases h : x.timestamp < e.timestamp
    · rw [insertByTimestamp, if_pos h, List.pairwise_cons]
      refine ⟨fun y hy => ?_, ih hl.2⟩
      rcases (mem_insertByTimestamp e y xs).mp hy with hye | hyx
      · exact hye ▸ le_of_lt h
      · exact hl.1 y hyx
    · rw [insertByTimestamp, if_neg h, List.pairwise_cons]
      refine ⟨fun y hy => ?_, List.pairwise_cons.mpr hl⟩
      rcases List.mem_cons.mp hy with hyx | hyxs
      · exact hyx ▸ le_of_not_lt h
      · exact le_trans (le_of_not_lt h) (hl.1 y hyxs)

theorem sorted_sortByTimestamp (l : List Event) :
    List.Pairwise (fun a b => a.timestamp ≤ b.timestamp) (sortByTimestamp l) := by
  induction l with
  | nil => simp [sortByTimestamp]
  | cons x xs ih => exact pairwise_insertByTimestamp x (sortByTimestamp xs) ih

theorem filter_insertByTimestamp (e : Event) (l : List Event) (t : Int) :
    (insertByTimestamp e l).filter (fun x => decide (x.timestamp = t)) =
      if e.timestamp = t then
        e :: l.filter (fun x => decide (x.timestamp = t))
      else l.filter (fun x => decide (x.timestamp = t)) := by
  induction l with
  | nil => by_cases he : e.timestamp = t <;> simp [insertByTimestamp, he]
  | cons x xs ih =>
    by_cases h : x.timestamp < e.timestamp
    · have hxt : ¬ (e.timestamp = t ∧ x.timestamp = t) := by
        rintro ⟨h1, h2⟩
        omega
      rw [insertByTimestamp, if_pos h]
      by_cases he : e.timestamp = t
      · have hx : ¬ x.timestamp = t := fun hh => hxt ⟨he, hh⟩
        simp [he, hx, ih]
      · by_cases hx : x.timestamp = t <;> simp [he, hx, ih]
    · rw [insertByTimestamp, if_neg h]
      by_cases he : e.timestamp = t <;> simp [he]

theorem filter_sortByTimestamp (l : List Event) (t : Int) :
    (sortByTimestamp l).filter (fun x => decide (x.timestamp = t)) =
      l.filter (fun x => decide (x.timestamp = t)) := by
  induction l with
  | nil => rfl
  | cons x xs ih =>
    rw [sortByTimestamp, filter_insertByTimestamp]
    by_cases hx : x.timestamp = t <;> simp [hx, ih]

/-- C2 (amended): `store_video_analysis` stores the submitted event list
verbatim — a read after the store returns exactly the submitted events,
in submission order, even when they are out of timestamp order — while
the sorted-ascending invariant is established upstream by
`detect_events`, whose output is always sorted by timestamp with ties
kept in submission order (stable). -/
theorem C2_store_verbatim_detect_sorted (cm : CM) (sid : String)
    (events : List Event) (summary : String)
    (guidelines : List (String × String)) (now : Nat) (s : Session)
    (hs : findSession cm.sessions sid = some s)
    (hexp : ¬ cm.session_timeout < now - s.last_activity) :
    (get_video_analysis
        (store_video_analysis cm sid events summary guidelines now) sid now).2 =
      some ⟨events, summary, guidelines, now⟩ ∧
    (∀ (vlm : List Frame → Except Unit String)
       (dec : List Char → Option (List Event)) (frames : List Frame),
      List.Pairwise (fun a b => a.timestamp ≤ b.timestamp)
        (detect_events vlm dec frames)) ∧
    (∀ (vlm : List Frame → Except Unit String)
       (dec : List Char → Option (List Event)) (frames : List Frame) (t : Int),
      (detect_events vlm dec frames).filter (fun e => decide (e.timestamp = t)) =
        (rawBatchEvents vlm dec frames).filter (fun e => decide (e.timestamp = t))) := by
  refine ⟨?_, fun vlm dec frames => sorted_sortByTimestamp _,
    fun vlm dec frames t => filter_sortByTimestamp _ t⟩
  rw [store_video_analysis_live cm sid events summary guidelines now s hs hexp]
  have hfind : findSession
      (setSession cm.sessions sid
        ({ s with last_activity := now,
                  video_analysis := some ⟨events, summary, guidelines, now⟩,
                  conversation_history := trimmedHistory cm.max_history
                    (s.conversation_history ++
                     [⟨"system",
                       "Video analyzed. Found " ++ toString events.length ++
                         " events. Summary: " ++ summary.take 200 ++ "...",
                       now, [("type", "video_analysis")]⟩]) })) sid =
      some ({ s with last_activity := now,
                     video_analysis := some ⟨events, summary, guidelines, now⟩,
                     conversation_history := trimmedHistory cm.max_history
                       (s.conversation_history ++
                        [⟨"system",
                          "Video analyzed. Found " ++ toString events.length ++
                            " events. Summary: " ++ summary.take 200 ++ "...",
                          now, [("type", "video_analysis")]⟩]) }) :=
    findSession_setSession cm.sessions sid s _ hs
  simp [get_video_analysis, get_session, hfind]

/-- Witness for C2: storing the out-of-order list `[t=2, t=1]` reads
back exactly `[t=2, t=1]`, and `detect_events` on a batch whose decoded
events are `[t=2, t=1]` yields them sorted `[t=1, t=2]`. -/
theorem C2_store_verbatim_detect_sorted_witness :
    (get_video_analysis
        (store_video_analysis ⟨[("a", ⟨"a", 0, 0, [], none, 0⟩)], [[]], 10, 30⟩
          "a" [⟨2, 0, "x", "d2", [], "low", false, none⟩,
               ⟨1, 0, "x", "d1", [], "low", false, none⟩] "sum" [] 1) "a" 1).2 =
      some ⟨[⟨2, 0, "x", "d2", [], "low", false, none⟩,
             ⟨1, 0, "x", "d1", [], "low", false, none⟩], "sum", [], 1⟩ ∧
    detect_events (fun _ => Except.ok "[x]")
      (fun _ => some [⟨2, 0, "x", "d2", [], "low", false, none⟩,
                      ⟨1, 0, "x", "d1", [], "low", false, none⟩])
      [⟨0, 0, "img"⟩] =
      [⟨1, 0, "x", "d1", [], "low", false, none⟩,
       ⟨2, 0, "x", "d2", [], "low", false, none⟩] := by
  have h := C2_store_verbatim_detect_sorted
    ⟨[("a", ⟨"a", 0, 0, [], none, 0⟩)], [[]], 10, 30⟩ "a"
    [⟨2, 0, "x", "d2", [], "low", false, none⟩,
     ⟨1, 0, "x", "d1", [], "low", false, none⟩] "sum" [] 1
    ⟨"a", 0, 0, [], none, 0⟩ (by decide) (by decide)
  exact ⟨h.1, by decide⟩

/-- Counterexample for C2 as stated: submitting events out of timestamp
order to `store_video_analysis` leaves them out of order in the stored
analysis — the readable event list is `[t=2, t=1]`, which is not sorted
ascending by timestamp. -/
theorem C2_store_sorts_counterexample :
    (get_video_analysis
        (store_video_analysis ⟨[("a", ⟨"a", 0, 0, [], none, 0⟩)], [[]], 10, 30⟩
          "a" [⟨2, 0, "x", "d2", [], "low", false, none⟩,
               ⟨1, 0, "x", "d1", [], "low", false, none⟩] "sum" [] 1) "a" 1).2.map
      VideoAnalysis.events =
      some [⟨2, 0, "x", "d2", [], "low", false, none⟩,
            ⟨1, 0, "x", "d1", [], "low", false, none⟩] ∧
    ¬ List.Pairwise (fun a b => a.timestamp ≤ b.timestamp)
      [(⟨2, 0, "x", "d2", [], "low", false, none⟩ : Event),
       ⟨1, 0, "x", "d1", [], "low", false, none⟩] := by
  exact ⟨by decide, by decide⟩

/-! ### Trim-policy lemmas -/

theorem trimmedHistory_eq (maxH : Nat) (F : List Message) (hmax : 1 ≤ maxH) :
    trimmedHistory maxH F =
      if maxH * 2 < F.length then
        F.filter (fun m => decide (m.role = "system")) ++
          (F.drop (F.length - maxH * 2)).filter
            (fun m => !decide (m.role = "system"))
      else F := by
  simp only [trimmedHistory, pyLastSlice]
  by_cases hlen : maxH * 2 < F.length
  · have hk : ¬ maxH * 2 = 0 := by omega
    rw [if_neg hk, if_pos hlen, if_pos hlen]
    congr 1
    apply List.filter_congr
    intro m hm
    have hmF : m ∈ F := List.drop_subset _ F hm
    by_cases hrole : m.role = "system"
    · have hmem : m ∈ F.filter (fun m => decide (m.role = "system")) := by
        rw [List.mem_filter]
        exact ⟨hmF, by simp [hrole]⟩
      simp [hrole, hmem]
    · have hmem : m ∉ F.filter (fun m => decide (m.role = "system")) := by
        rw [List.mem_filter]
        rintro ⟨-, hdec⟩
        simp at hdec
        exact hrole hdec
      simp [hrole, hmem]
  · rw [if_neg hlen, if_neg hlen]

theorem trimmedHistory_nodup (maxH : Nat) (F : List Message) (hmax : 1 ≤ maxH)
    (hnd : F.Nodup) : (trimmedHistory maxH F).Nodup := by
  rw [trimmedHistory_eq maxH F hmax]
  by_cases hlen : maxH * 2 < F.length
  · rw [if_pos hlen]
    refine List.Nodup.append (hnd.filter _)
      (((List.drop_sublist _ _).nodup hnd).filter _) ?_
    intro m hm1 hm2
    rw [List.mem_filter] at hm1 hm2
    have h1 : m.role = "system" := by simpa using hm1.2
    have h2 : ¬ m.role = "system" := by simpa using hm2.2
    exact h2 h1
  · rw [if_neg hlen]
    exact hnd

/-- C1 (amended): on a live, non-expired session with
`max_history ≥ 1`, an append that makes the history length exceed
`2 * max_history` trims it to all system-role messages — placed first,
in their original order — followed by the non-system messages among the
last `2 * max_history` of the full list, in their original order; when
the full list has no duplicate records no retained message is
duplicated; appends that do not pass the threshold leave the appended
history untrimmed. -/
theorem C1_trim_amended (cm : CM) (sid role content : String)
    (metadata : List (String × String)) (now : Nat) (s : Session)
    (F : List Message)
    (hs : findSession cm.sessions sid = some s)
    (hexp : ¬ cm.session_timeout < now - s.last_activity)
    (hmax : 1 ≤ cm.max_history)
    (hF : F = s.conversation_history ++ [⟨role, content, now, metadata⟩]) :
    ∃ s2, findSession (add_message cm sid role content metadata now).sessions sid
        = some s2 ∧
      (cm.max_history * 2 < F.length →
        s2.conversation_history =
          F.filter (fun m => decide (m.role = "system")) ++
            (F.drop (F.length - cm.max_history * 2)).filter
              (fun m => !decide (m.role = "system"))) ∧
      (¬ cm.max_history * 2 < F.length → s2.conversation_history = F) ∧
      (F.Nodup → s2.conversation_history.Nodup) := by
  rw [add_message_live cm sid role content metadata now s hs hexp]
  refine ⟨_, findSession_setSession cm.sessions sid s _ hs, ?_, ?_, ?_⟩
  · intro hlen
    simp only [← hF]
    rw [trimmedHistory_eq cm.max_history F hmax, if_pos hlen]
  · intro hlen
    simp only [← hF]
    rw [trimmedHistory_eq cm.max_history F hmax, if_neg hlen]
  · intro hnd
    simp only [← hF]
    exact trimmedHistory_nodup cm.max_history F hmax hnd

/-- Witness for C1 on `max_history = 1`: appending a user message to
the two-message history `[u1, sys]` crosses the threshold (length 3 >
2) and trims to the system message followed by the retained recent
non-system message. -/
theorem C1_trim_amended_witness :
    ∃ s2,
      findSession (add_message
          ⟨[("a", ⟨"a", 0, 0, [⟨"user", "m1", 1, []⟩, ⟨"system", "sy", 2, []⟩],
            none, 0⟩)], [[]], 1, 30⟩ "a" "user" "m2" [] 3).sessions "a" = some s2 ∧
      s2.conversation_history =
        [⟨"system", "sy", 2, []⟩, ⟨"user", "m2", 3, []⟩] ∧
      s2.conversation_history.Nodup := by
  obtain ⟨s2, hfind, htrim, -, hnd⟩ := C1_trim_amended
    ⟨[("a", ⟨"a", 0, 0, [⟨"user", "m1", 1, []⟩, ⟨"system", "sy", 2, []⟩],
      none, 0⟩)], [[]], 1, 30⟩ "a" "user" "m2" [] 3
    ⟨"a", 0, 0, [⟨"user", "m1", 1, []⟩, ⟨"system", "sy", 2, []⟩], none, 0⟩
    [⟨"user", "m1", 1, []⟩, ⟨"system", "sy", 2, []⟩, ⟨"user", "m2", 3, []⟩]
    (by decide) (by decide) (by decide) (by decide)
  refine ⟨s2, hfind, ?_, hnd (by decide)⟩
  rw [htrim (by decide)]
  decide

/-- Counterexample for C1 as stated: (i) the surviving messages need not
keep their original insertion order — trimming `[u1, u2, sys]` with
`max_history = 1` yields `[sys, u2]` although `u2` was inserted before
`sys`; (ii) a retained message can be duplicated — trimming
`[sys0, sys0, u]` yields `[sys0, sys0, u]` with `sys0` retained twice. -/
theorem C1_trim_order_counterexample :
    (historyOf (add_message
        ⟨[("a", ⟨"a", 0, 0, [⟨"user", "m1", 1, []⟩, ⟨"user", "m2", 2, []⟩],
          none, 0⟩)], [[]], 1, 30⟩ "a" "system" "sy" [] 3) "a" =
      [⟨"system", "sy", 3, []⟩, ⟨"user", "m2", 2, []⟩]) ∧
    ([⟨"user", "m1", 1, []⟩, ⟨"user", "m2", 2, []⟩,
      ⟨"system", "sy", 3, []⟩].filter
        (fun m => decide (m ∈ ([⟨"system", "sy", 3, []⟩,
          ⟨"user", "m2", 2, []⟩] : List Message))) =
      [⟨"user", "m2", 2, []⟩, ⟨"system", "sy", 3, []⟩]) ∧
    ([⟨"system", "sy", 3, []⟩, ⟨"user", "m2", 2, []⟩] : List Message) ≠
      [⟨"user", "m2", 2, []⟩, ⟨"system", "sy", 3, []⟩] ∧
    (historyOf (add_message
        ⟨[("b", ⟨"b", 0, 0, [⟨"system", "x", 0, []⟩, ⟨"system", "x", 0, []⟩],
          none, 0⟩)], [[]], 1, 30⟩ "b" "user" "u" [] 1) "b" =
      [⟨"system", "x", 0, []⟩, ⟨"system", "x", 0, []⟩, ⟨"user", "u", 1, []⟩]) ∧
    ¬ ([⟨"system", "x", 0, []⟩, ⟨"system", "x", 0, []⟩,
        ⟨"user", "u", 1, []⟩] : List Message).Nodup := by
  exact ⟨by decide, by decide, by decide, by decide, by decide⟩

/-- C9 (amended): on a live, non-expired session,
`store_video_analysis` overwrites the analysis field and appends
exactly one system-role message — content naming the event count and
the 200-character summary head, metadata type `video_analysis` — to the
history before trimming; the history length grows by exactly one
whenever the appended list stays within the trim threshold (otherwise
trimming may shrink it); on an absent session nothing is mutated. -/
theorem C9_store_appends_system_message (cm : CM) (sid : String)
    (events : List Event) (summary : String)
    (guidelines : List (String × String)) (now : Nat) (s : Session)
    (hs : findSession cm.sessions sid = some s)
    (hexp : ¬ cm.session_timeout < now - s.last_activity) :
    ∃ s2, findSession
        (store_video_analysis cm sid events summary guidelines now).sessions sid
        = some s2 ∧
      s2.video_analysis = some ⟨events, summary, guidelines, now⟩ ∧
      s2.conversation_history = trimmedHistory cm.max_history
        (s.conversation_history ++
         [⟨"system",
           "Video analyzed. Found " ++ toString events.length ++
             " events. Summary: " ++ summary.take 200 ++ "...",
           now, [("type", "video_analysis")]⟩]) ∧
      (¬ cm.max_history * 2 < s.conversation_history.length + 1 →
        s2.conversation_history =
          s.conversation_history ++
            [⟨"system",
              "Video analyzed. Found " ++ toString events.length ++
                " events. Summary: " ++ summary.take 200 ++ "...",
              now, [("type", "video_analysis")]⟩] ∧
        s2.conversation_history.length = s.conversation_history.length + 1) ∧
      (∀ sid2, findSession cm.sessions sid2 = none →
        store_video_analysis cm sid2 events summary guidelines now = cm) := by
  rw [store_video_analysis_live cm sid events summary guidelines now s hs hexp]
  refine ⟨_, findSession_setSession cm.sessions sid s _ hs, rfl, rfl,
    fun hlen => ?_, fun sid2 h2 => ?_⟩
  · have hlen2 : ¬ cm.max_history * 2 <
        (s.conversation_history ++
         [(⟨"system",
           "Video analyzed. Found " ++ toString events.length ++
             " events. Summary: " ++ summary.take 200 ++ "...",
           now, [("type", "video_analysis")]⟩ : Message)]).length := by
      simpa using hlen
    rw [trimmedHistory, if_neg hlen2]
    exact ⟨rfl, by simp⟩
  · simp [store_video_analysis, get_session, h2]

set_option maxRecDepth 10000 in
/-- Witness for C9 on an empty-history session: the stored analysis is
readable and the history becomes the single system message with the
expected content and metadata. -/
theorem C9_store_appends_system_message_witness :
    ∃ s2, findSession
        (store_video_analysis ⟨[("a", ⟨"a", 0, 0, [], none, 0⟩)], [[]], 10, 30⟩
          "a" [] "the summary" [] 1).sessions "a" = some s2 ∧
      s2.video_analysis = some ⟨[], "the summary", [], 1⟩ ∧
      s2.conversation_history =
        [⟨"system", "Video analyzed. Found 0 events. Summary: the summary...",
          1, [("type", "video_analysis")]⟩] := by
  obtain ⟨s2, hfind, hva, -, hgrow, -⟩ := C9_store_appends_system_message
    ⟨[("a", ⟨"a", 0, 0, [], none, 0⟩)], [[]], 10, 30⟩ "a" [] "the summary" [] 1
    ⟨"a", 0, 0, [], none, 0⟩ (by decide) (by decide)
  refine ⟨s2, hfind, hva, ?_⟩
  rw [(hgrow (by decide)).1]
  decide

set_option maxRecDepth 10000 in
/-- Counterexample for C9 as stated: (i) at the trim boundary the
history does not grow — with `max_history = 1` and a two-message
history, the store leaves the history at length two; (ii) on an expired
session the call is not mutation-free — it evicts the record. -/
theorem C9_store_growth_counterexample :
    (historyOf (store_video_analysis
        ⟨[("a", ⟨"a", 0, 0, [⟨"user", "m1", 1, []⟩, ⟨"user", "m2", 2, []⟩],
          none, 0⟩)], [[]], 1, 30⟩ "a" [] "sum" [] 3) "a").length = 2 ∧
    (historyOf ⟨[("a", ⟨"a", 0, 0, [⟨"user", "m1", 1, []⟩, ⟨"user", "m2", 2, []⟩],
      none, 0⟩)], [[]], 1, 30⟩ "a").length = 2 ∧
    store_video_analysis ⟨[("e", ⟨"e", 0, 0, [], none, 0⟩)], [[]], 1, 1⟩
      "e" [] "sum" [] 10 ≠
      ⟨[("e", ⟨"e", 0, 0, [], none, 0⟩)], [[]], 1, 1⟩ := by
  exact ⟨by decide, by decide, by decide⟩

/-- A `get_session` at the tick already recorded as `last_activity`
finds the session and leaves the whole state unchanged (the refresh
writes back the identical record), provided the store keys are unique. -/
theorem get_session_fresh (cm : CM) (sid : String) (s : Session) (now : Nat)
    (hfind : findSession cm.sessions sid = some s)
    (hla : s.last_activity = now)
    (hkeys : (cm.sessions.map Prod.fst).Nodup) :
    get_session cm sid now = (cm, some s) := by
  have hss : ({ s with last_activity := now } : Session) = s := by
    cases s
    cases hla
    rfl
  have hnotexp : ¬ cm.session_timeout < now - s.last_activity := by
    rw [hla]
    simp
  simp only [get_session, hfind]
  rw [if_neg hnotexp, hss, setSession_self cm.sessions sid s hkeys hfind]

/-- After the user-message append, a failing chat-model call makes
`process_message` return the apologetic message with the state exactly
as the append left it: the later reads find the session without
changing anything, and the assistant append and context update are
never reached. -/
theorem process_message_after_failure (gen : List LMessage → Except Unit String)
    (cm cm1 : CM) (sid message : String) (now : Nat) (s1 : Session)
    (hgen : ∀ ms, gen ms = Except.error ())
    (hadd : add_message cm sid "user" message [] now = cm1)
    (hget : get_session cm1 sid now = (cm1, some s1)) :
    process_message gen cm sid message now = (cm1, apologyMessage) := by
  simp [process_message, hadd, get_conversation_history, get_video_analysis,
    get_context, hget, hgen]

/-- C4 (amended): when the chat-model call fails, the turn returns the
apologetic message instead of raising, and commits no assistant message
and no context update — but the user message appended before the model
call is not rolled back: the final state is exactly the state after
that single append. -/
theorem C4_model_failure_keeps_user_append
    (gen : List LMessage → Except Unit String) (cm : CM)
    (sid message : String) (now : Nat) (s : Session)
    (hgen : ∀ ms, gen ms = Except.error ())
    (hs : findSession cm.sessions sid = some s)
    (hexp : ¬ cm.session_timeout < now - s.last_activity)
    (hkeys : (cm.sessions.map Prod.fst).Nodup) :
    process_message gen cm sid message now =
      (add_message cm sid "user" message [] now, apologyMessage) := by
  have hlive := add_message_live cm sid "user" message [] now s hs hexp
  refine process_message_after_failure gen cm _ sid message now
    ({ s with last_activity := now,
              conversation_history := trimmedHistory cm.max_history
                (s.conversation_history ++ [⟨"user", message, now, []⟩]) })
    hgen rfl ?_
  rw [hlive]
  refine get_session_fresh _ sid _ now
    (findSession_setSession cm.sessions sid s _ hs) rfl ?_
  simpa [keys_setSession] using hkeys

/-- Witness for C4: a failing model client on a live one-session store
yields the apology and the state of the single user append. -/
theorem C4_model_failure_keeps_user_append_witness :
    process_message (fun _ => Except.error ())
      ⟨[("a", ⟨"a", 0, 0, [], none, 0⟩)], [[]], 10, 30⟩ "a" "hi" 1 =
      (add_message ⟨[("a", ⟨"a", 0, 0, [], none, 0⟩)], [[]], 10, 30⟩
        "a" "user" "hi" [] 1, apologyMessage) :=
  C4_model_failure_keeps_user_append (fun _ => Except.error ())
    ⟨[("a", ⟨"a", 0, 0, [], none, 0⟩)], [[]], 10, 30⟩ "a" "hi" 1
    ⟨"a", 0, 0, [], none, 0⟩ (fun _ => rfl) (by decide) (by decide) (by decide)

set_option maxRecDepth 10000 in
/-- Counterexample for C4 as stated: after a failed model call the
session history does not equal its pre-turn state — the user message
appended before the call remains committed. -/
theorem C4_no_rollback_counterexample :
    (process_message (fun _ => Except.error ())
        ⟨[("a", ⟨"a", 0, 0, [], none, 0⟩)], [[]], 10, 30⟩ "a" "hi" 1).2 =
      apologyMessage ∧
    historyOf (process_message (fun _ => Except.error ())
        ⟨[("a", ⟨"a", 0, 0, [], none, 0⟩)], [[]], 10, 30⟩ "a" "hi" 1).1 "a" =
      [⟨"user", "hi", 1, []⟩] ∧
    historyOf ⟨[("a", ⟨"a", 0, 0, [], none, 0⟩)], [[]], 10, 30⟩ "a" = [] ∧
    ([⟨"user", "hi", 1, []⟩] : List Message) ≠ [] := by
  exact ⟨by decide, by decide, by decide, by decide⟩
